import Mathlib

/-!
# werror: the `Result[T]` container and its combinators

Shallow embedding of `werror.go`.

* Go's `error` interface value is `GoError E = Option E` over an opaque payload
  type `E`; `none` is `nil`, `some e` is a non-nil error.
* The zero value of the success type `T` is `default` of `[Inhabited T]`.
* Callbacks are arbitrary Go closures, so they are embedded with explicit state
  passing over an arbitrary state type `σ`: a callback of Go type
  `func(T) (T, error)` is a function `T → σ → (T × GoError E) × σ`, and a
  combinator that takes a callback maps a state to a result and a state.
* `err != nil` is `err.isSome` and `err == nil` is `err.isNone`.
* `panic(x)` is the `Except.error x` outcome.
-/

namespace Werror

/-- Go's `error` interface value over an opaque payload type: `none` is `nil`. -/
abbrev GoError (E : Type) := Option E

/-- Source: `type Result[T any] struct { value T; err error }`. -/
structure Result (E T : Type) where
  value : T
  err : GoError E
  deriving DecidableEq, Repr

variable {E T σ : Type}

/-- Source: `func Ok[T any](value T) Result[T]`: the `err` field keeps its zero value `nil`. -/
def Ok (value : T) : Result E T :=
  { value := value, err := none }

/-- Source: `func Err[T any](err error) Result[T]`: the `value` field keeps the zero value of `T`. -/
def Err [Inhabited T] (err : GoError E) : Result E T :=
  { value := default, err := err }

/-- Source: `func Wrap[T any](value T, err error) Result[T]`. -/
def Wrap [Inhabited T] (value : T) (err : GoError E) : Result E T :=
  if err.isSome then Err err else Ok value

/-- Source: `func (r Result[T]) Unwrap() (T, error)`. -/
def Result.Unwrap (r : Result E T) : T × GoError E :=
  (r.value, r.err)

/-- Source: `func (r Result[T]) ThenFn(fn func(T) (T, error)) Result[T]`. -/
def Result.ThenFn [Inhabited T] (r : Result E T)
    (fn : T → σ → (T × GoError E) × σ) (s : σ) : Result E T × σ :=
  if r.err.isSome then (r, s)
  else
    let out := fn r.value s
    (Wrap out.1.1 out.1.2, out.2)

/-- Source: `func (r Result[T]) Then(fn func(T) Result[T]) Result[T]`. -/
def Result.Then (r : Result E T)
    (fn : T → σ → Result E T × σ) (s : σ) : Result E T × σ :=
  if r.err.isSome then (r, s)
  else fn r.value s

/-- Source: `func (r Result[T]) OnSuccess(fn func(T)) Result[T]`. -/
def Result.OnSuccess (r : Result E T) (fn : T → σ → σ) (s : σ) : Result E T × σ :=
  if r.err.isNone then (r, fn r.value s) else (r, s)

/-- Source: `func (r Result[T]) OnError(fn func(error)) Result[T]`. -/
def Result.OnError (r : Result E T) (fn : GoError E → σ → σ) (s : σ) : Result E T × σ :=
  if r.err.isSome then (r, fn r.err s) else (r, s)

/-- Source: `func (r Result[T]) Always(fn func()) Result[T]`. -/
def Result.Always (r : Result E T) (fn : σ → σ) (s : σ) : Result E T × σ :=
  (r, fn s)

/-- Source: `func (r Result[T]) Value() T`. -/
def Result.Value (r : Result E T) : T :=
  r.value

/-- Source: `func (r Result[T]) Error() error`. -/
def Result.Error (r : Result E T) : GoError E :=
  r.err

/-- Source: `func (r Result[T]) IsOk() bool`. -/
def Result.IsOk (r : Result E T) : Bool :=
  r.err.isNone

/-- Source: `func (r Result[T]) IsErr() bool`. -/
def Result.IsErr (r : Result E T) : Bool :=
  r.err.isSome

/-- Source: `func (r Result[T]) Must() T`: `panic(r.err)` is `Except.error r.err`. -/
def Result.Must (r : Result E T) : Except (GoError E) T :=
  if r.err.isSome then Except.error r.err else Except.ok r.value

/-- Source: `func (r Result[T]) Or(v T) T`. -/
def Result.Or (r : Result E T) (v : T) : T :=
  if r.err.isSome then v else r.value

/-! ## Observing callback invocations -/

/-- Instrument a callback with a call log kept next to its own state: every invocation
runs the callback and appends the argument it was called with. -/
def logged {α β : Type} (fn : α → σ → β × σ) (a : α) (sl : σ × List α) :
    β × (σ × List α) :=
  let out := fn a sl.1
  (out.1, (out.2, sl.2 ++ [a]))

/-- Instrument a callback without a return value (`func(T)`, `func(error)`) with a call
log: every invocation runs the callback and appends the argument it was called with. -/
def loggedEffect {α : Type} (fn : α → σ → σ) (a : α) (sl : σ × List α) : σ × List α :=
  (fn a sl.1, sl.2 ++ [a])

/-- Instrument a callback without arguments (`func()`) with a call counter. -/
def countedThunk (fn : σ → σ) (sn : σ × Nat) : σ × Nat :=
  (fn sn.1, sn.2 + 1)

/-- An observed callback invocation, for chains whose callbacks share one ordered log. -/
inductive Event (E T : Type) where
  | success (v : T)
  | failure (err : GoError E)
  | always
  deriving DecidableEq, Repr

/-- Instrument an `OnSuccess` callback: run it and record `Event.success` of its argument. -/
def traceSuccess (a : T → σ → σ) (v : T) (sl : σ × List (Event E T)) :
    σ × List (Event E T) :=
  (a v sl.1, sl.2 ++ [Event.success v])

/-- Instrument an `OnError` callback: run it and record `Event.failure` of its argument. -/
def traceError (b : GoError E → σ → σ) (err : GoError E) (sl : σ × List (Event E T)) :
    σ × List (Event E T) :=
  (b err sl.1, sl.2 ++ [Event.failure err])

/-- Instrument an `Always` callback: run it and record `Event.always`. -/
def traceAlways (c : σ → σ) (sl : σ × List (Event E T)) : σ × List (Event E T) :=
  (c sl.1, sl.2 ++ [Event.always])

/-! ## Method chains -/

/-- One link of a method chain: a chaining combinator together with its callback. -/
inductive Step (σ E T : Type) where
  | ThenFn (f : T → σ → (T × GoError E) × σ)
  | Then (g : T → σ → Result E T × σ)
  | OnSuccess (h : T → σ → σ)
  | OnError (k : GoError E → σ → σ)
  | Always (a : σ → σ)

/-- Apply one link to a receiver: the method call `r.M(cb)`. -/
def Step.apply [Inhabited T] (st : Step σ E T) (r : Result E T) (s : σ) : Result E T × σ :=
  match st with
  | Step.ThenFn f => r.ThenFn f s
  | Step.Then g => r.Then g s
  | Step.OnSuccess h => r.OnSuccess h s
  | Step.OnError k => r.OnError k s
  | Step.Always a => r.Always a s

/-- The chain `r.M1(cb1).M2(cb2)...`: each link receives the Result returned by the
previous one, and runs in the state the previous one left. -/
def runChain [Inhabited T] (steps : List (Step σ E T)) (r : Result E T) (s : σ) :
    Result E T × σ :=
  steps.foldl (fun acc st => st.apply acc.1 acc.2) (r, s)

/-- The chain `r.ThenFn(f1).ThenFn(f2)...ThenFn(fn)`. -/
def thenFnChain [Inhabited T] (fs : List (T → σ → (T × GoError E) × σ)) (r : Result E T)
    (s : σ) : Result E T × σ :=
  fs.foldl (fun acc f => acc.1.ThenFn f acc.2) (r, s)

/-- Specification of C6, following its words: the short-circuiting sequential composition
of fallible steps. The steps run in order, each on the value returned by the one before;
the first step that returns a non-nil error ends the run with `Err` of that error, and no
later step runs; when no step fails the run ends with `Ok` of the last value. -/
def seqCompose [Inhabited T] (fs : List (T → σ → (T × GoError E) × σ)) (v : T) (s : σ) :
    Result E T × σ :=
  match fs with
  | [] => (Ok v, s)
  | f :: rest =>
    match (f v s).1.2 with
    | none => seqCompose rest (f v s).1.1 (f v s).2
    | some e => (Err (some e), (f v s).2)

/-- The observer chain `r.OnSuccess(a).OnError(b).Always(c)` of `TestComplexChaining` and
`sideEffectsExample`. -/
def observerChain (r : Result E T) (a : T → σ → σ) (b : GoError E → σ → σ) (c : σ → σ)
    (s : σ) : Result E T × σ :=
  let r1 := r.OnSuccess a s
  let r2 := r1.1.OnError b r1.2
  r2.1.Always c r2.2

/-! ## The zero-value-on-failure invariant and callback adaptors -/

/-- The zero-value-on-failure predicate: if `IsErr()` then `Value()` is the zero value. -/
def ZeroOnFailure [Inhabited T] (r : Result E T) : Prop :=
  r.IsErr = true → r.Value = default

instance decidableZeroOnFailure [Inhabited T] [DecidableEq T] (r : Result E T) :
    Decidable (ZeroOnFailure r) :=
  inferInstanceAs (Decidable (r.IsErr = true → r.Value = default))

/-- Results reachable through the public API: built by `Ok`, `Err` or `Wrap`, or returned
by a combinator called on a reachable Result. The fields of `Result` are unexported, so a
`Then` callback of a caller can itself only return reachable Results. -/
inductive Reachable [Inhabited T] : Result E T → Prop where
  | ofOk (v : T) : Reachable (Ok v)
  | ofErr (err : GoError E) : Reachable (Err err)
  | ofWrap (v : T) (err : GoError E) : Reachable (Wrap v err)
  | thenFn {ρ : Type} (r : Result E T) (fn : T → ρ → (T × GoError E) × ρ) (s : ρ) :
      Reachable r → Reachable (r.ThenFn fn s).1
  | andThen {ρ : Type} (r : Result E T) (gn : T → ρ → Result E T × ρ) (s : ρ) :
      Reachable r → (∀ x t, Reachable (gn x t).1) → Reachable (r.Then gn s).1
  | onSuccess {ρ : Type} (r : Result E T) (f : T → ρ → ρ) (s : ρ) :
      Reachable r → Reachable (r.OnSuccess f s).1
  | onError {ρ : Type} (r : Result E T) (k : GoError E → ρ → ρ) (s : ρ) :
      Reachable r → Reachable (r.OnError k s).1
  | always {ρ : Type} (r : Result E T) (a : ρ → ρ) (s : ρ) :
      Reachable r → Reachable (r.Always a s).1

/-- The Go closure `func(x T) Result[T] { return Wrap(fn(x)) }`. -/
def wrapFn [Inhabited T] (fn : T → σ → (T × GoError E) × σ) (x : T) (s : σ) :
    Result E T × σ :=
  let out := fn x s
  (Wrap out.1.1 out.1.2, out.2)

/-- The Go closure `func(x T) Result[T] { return f(x).Then(g) }`. -/
def thenCompose (f g : T → σ → Result E T × σ) (x : T) (s : σ) : Result E T × σ :=
  let out := f x s
  out.1.Then g out.2

/-- The function value `Ok` passed as a `Then` callback: it leaves the state alone. -/
def okFn (x : T) (s : σ) : Result E T × σ :=
  (Ok x, s)

/-! ## Test fixtures from `werror_test.go` -/

/-- Go's `int` on 64-bit targets: two's-complement wrap-around of a mathematical integer. -/
def wrapInt64 (x : Int) : Int :=
  (x + 2 ^ 63) % 2 ^ 64 - 2 ^ 63

/-- Fixture `doubleFn = func(x int) (int, error) { return x * 2, nil }`. -/
def doubleFn (x : Int) (s : Unit) : (Int × GoError String) × Unit :=
  ((wrapInt64 (x * 2), none), s)

/-- Fixture `failFn = func(x int) (int, error) { return 0, errors.New("fail") }`. -/
def failFn (_x : Int) (s : Unit) : (Int × GoError String) × Unit :=
  ((0, some "fail"), s)

/-- Fixture `doubleResult = func(x int) Result[int] { return Ok(x * 2) }`. -/
def doubleResult (x : Int) (s : Unit) : Result String Int × Unit :=
  (Ok (wrapInt64 (x * 2)), s)

/-- Fixture `add10 := func(x int) (int, error) { return x + 10, nil }` of `TestChaining`. -/
def add10 (x : Int) (s : Unit) : (Int × GoError String) × Unit :=
  ((wrapInt64 (x + 10), none), s)

/-- Step `x → (x+1, nil)` of end-to-end scenario A. -/
def addOne (x : Int) (s : Unit) : (Int × GoError String) × Unit :=
  ((wrapInt64 (x + 1), none), s)

/-- Step `x → (0, "negative")` of end-to-end scenario B. -/
def negativeFn (_x : Int) (s : Unit) : (Int × GoError String) × Unit :=
  ((0, some "negative"), s)

/-- Fixture `divide` of `TestComplexChaining`: Go's `/` on `int` truncates toward zero. -/
def divide (a b : Int) : Int × GoError String :=
  if b == 0 then (0, some "division by zero") else (wrapInt64 (Int.tdiv a b), none)

/-- Fixture `processValue` of `examples/chaining_then.go`. -/
def processValue (x : Int) (s : Unit) : Result String Int × Unit :=
  if x < 0 then (Err (some "negative value"), s) else (Ok (wrapInt64 (x * 2)), s)

/-- Fixture `validateRange` of `examples/chaining_then.go`. -/
def validateRange (x : Int) (s : Unit) : Result String Int × Unit :=
  if x > 100 then (Err (some "value too large"), s) else (Ok x, s)

/-- A callback that returns a non-zero value together with a non-nil error. -/
def valueAndError (_x : Int) (s : Unit) : (Int × GoError String) × Unit :=
  ((7, some "bad"), s)

/-! ## Theorems -/

/-- C1. Short-circuit law: on a Result in the Err state (in particular on `Err(e)` for a
non-nil `e`), `ThenFn` and `Then` return the receiver itself and leave the state
untouched, and a call log attached to the callback is unchanged (the callback is invoked
zero times). -/
theorem short_circuit [Inhabited T] (r : Result E T) (h : r.IsErr = true) (e : E)
    (fn : T → σ → (T × GoError E) × σ) (gn : T → σ → Result E T × σ)
    (s : σ) (log : List T) :
    r.ThenFn fn s = (r, s) ∧ r.Then gn s = (r, s) ∧
    r.ThenFn (logged fn) (s, log) = (r, (s, log)) ∧
    r.Then (logged gn) (s, log) = (r, (s, log)) ∧
    (Err (some e) : Result E T).ThenFn (logged fn) (s, log) = (Err (some e), (s, log)) ∧
    (Err (some e) : Result E T).Then (logged gn) (s, log) = (Err (some e), (s, log)) := by
  have hs : r.err.isSome = true := h
  simp [Result.ThenFn, Result.Then, hs, Err]

/-- Witness for C1: `Err[int]("original error")` through `doubleFn` and `doubleResult`. -/
theorem short_circuit_witness :
    (Err (some "original error") : Result String Int).IsErr = true ∧
    (Err (some "original error") : Result String Int).ThenFn doubleFn () =
      (Err (some "original error"), ()) ∧
    (Err (some "original error") : Result String Int).Then doubleResult () =
      (Err (some "original error"), ()) :=
  have h := short_circuit (Err (some "original error") : Result String Int) (by decide)
    "other" doubleFn doubleResult () []
  ⟨by decide, h.1, h.2.1⟩

/-- C2. Chaining law for `ThenFn`: on `Ok(v)` it is `Wrap` of the callback's pair, that is
`Ok(w)` when the callback returns `(w, nil)` and `Err(e)` (value discarded) when it returns
`(w, e)` with `e` non-nil; the callback runs exactly once, with argument `v`. -/
theorem thenFn_ok_eq_wrap [Inhabited T] (v : T) (fn : T → σ → (T × GoError E) × σ)
    (s : σ) (log : List T) :
    (Ok v : Result E T).ThenFn fn s = (Wrap (fn v s).1.1 (fn v s).1.2, (fn v s).2) ∧
    (Ok v : Result E T).ThenFn fn s =
      (match (fn v s).1.2 with
        | none => (Ok (fn v s).1.1, (fn v s).2)
        | some e => (Err (some e), (fn v s).2)) ∧
    (Ok v : Result E T).ThenFn (logged fn) (s, log) =
      (Wrap (fn v s).1.1 (fn v s).1.2, ((fn v s).2, log ++ [v])) := by
  refine ⟨rfl, ?_, rfl⟩
  simp only [Result.ThenFn, Ok, Wrap, Option.isSome_none, Bool.false_eq_true, if_false]
  cases (fn v s).1.2 <;> simp

/-- C3. `Wrap` lifts a pair: `Wrap(v, nil)` is `Ok(v)`; for a non-nil `e`, `Wrap(v, e)` is
`Err(e)`: it is in the Err state, its error is `e`, and `v` is dropped for the zero value. -/
theorem wrap_lifts_pair [Inhabited T] (v : T) (e : E) :
    (Wrap v none : Result E T) = Ok v ∧
    (Wrap v (some e) : Result E T) = Err (some e) ∧
    (Wrap v (some e) : Result E T).IsErr = true ∧
    (Wrap v (some e) : Result E T).Error = some e ∧
    (Wrap v (some e) : Result E T).Value = default := by
  simp [Wrap, Err, Result.IsErr, Result.Error, Result.Value]

/-- C4. `Then` on `Ok(v)` returns the callback's Result directly, with no further wrapping
(Ok when the callback returns Ok, Err with the callback's error when it returns Err); the
callback runs exactly once, with argument `v`. -/
theorem then_ok_eq_callback (v : T) (gn : T → σ → Result E T × σ) (s : σ) (log : List T) :
    (Ok v : Result E T).Then gn s = gn v s ∧
    ((Ok v : Result E T).Then gn s).1.IsOk = (gn v s).1.IsOk ∧
    ((Ok v : Result E T).Then gn s).1.Error = (gn v s).1.Error ∧
    (Ok v : Result E T).Then (logged gn) (s, log) = ((gn v s).1, ((gn v s).2, log ++ [v])) :=
  ⟨rfl, rfl, rfl, rfl⟩

/-- A chain of any steps started in the Err state returns its receiver. -/
theorem runChain_of_isSome [Inhabited T] (steps : List (Step σ E T)) (r : Result E T)
    (h : r.err.isSome = true) (s : σ) : (runChain steps r s).1 = r := by
  induction steps generalizing s with
  | nil => rfl
  | cons st rest ih =>
    have hstep : (st.apply r s).1 = r := by
      cases st with
      | ThenFn f => simp [Step.apply, Result.ThenFn, h]
      | Then g => simp [Step.apply, Result.Then, h]
      | OnSuccess k => simp only [Step.apply, Result.OnSuccess]; split <;> rfl
      | OnError k => simp only [Step.apply, Result.OnError]; split <;> rfl
      | Always a => rfl
    have hcons : runChain (st :: rest) r s = runChain rest (st.apply r s).1 (st.apply r s).2 :=
      rfl
    rw [hcons, hstep]
    exact ih _

/-- A chain of `ThenFn` steps started in the Err state invokes nothing. -/
theorem thenFnChain_of_isSome [Inhabited T] (fs : List (T → σ → (T × GoError E) × σ))
    (r : Result E T) (h : r.err.isSome = true) (s : σ) : thenFnChain fs r s = (r, s) := by
  induction fs with
  | nil => rfl
  | cons f rest ih =>
    have hcons : thenFnChain (f :: rest) r s =
        thenFnChain rest (r.ThenFn f s).1 (r.ThenFn f s).2 := rfl
    have hstep : r.ThenFn f s = (r, s) := by simp [Result.ThenFn, h]
    rw [hcons, hstep]
    exact ih

/-- C5. Failure is never cleared by a chain: started on a Result in the Err state, any
finite sequence of `ThenFn`, `Then`, `OnSuccess`, `OnError` and `Always` steps with
arbitrary callbacks returns a Result equal to the receiver: still Err, same error. -/
theorem failure_never_cleared [Inhabited T] (r : Result E T) (h : r.IsErr = true)
    (steps : List (Step σ E T)) (s : σ) :
    (runChain steps r s).1 = r ∧ (runChain steps r s).1.IsErr = true ∧
    (runChain steps r s).1.Error = r.Error := by
  have hr := runChain_of_isSome steps r h s
  rw [hr]
  exact ⟨rfl, h, rfl⟩

/-- Witness for C5: `TestErrorPropagation`, extended with the three observer steps. -/
theorem failure_never_cleared_witness :
    (Err (some "original error") : Result String Int).IsErr = true ∧
    (runChain
      [Step.ThenFn (fun x n => ((wrapInt64 (x * 2), none), n + 1)),
       Step.Then (fun x n => (Ok (wrapInt64 (x + 1)), n + 1)),
       Step.OnSuccess (fun _ n => n + 1), Step.OnError (fun _ n => n + 10),
       Step.Always (fun n => n + 100)]
      (Err (some "original error") : Result String Int) (0 : Nat)).1 =
      Err (some "original error") :=
  ⟨by decide,
    (failure_never_cleared (Err (some "original error") : Result String Int) (by decide)
      _ 0).1⟩

/-- C6. A chain of `ThenFn` steps started on `Ok(v)` is the short-circuiting sequential
composition of its steps: `Ok` of the composed value when no step returns an error,
otherwise `Err` of the error of the first failing step, no later step being invoked.
Witnesses: `Ok(10)` through double then add-one is `Ok(21)`; `Ok(5)` through double then
add-ten is `Ok(20)`; `Ok(10)` through a step returning `(0, "negative")` then double is
`Err("negative")`, and the call log shows the failing step alone was invoked. -/
theorem thenFnChain_eq_seqCompose [Inhabited T] (fs : List (T → σ → (T × GoError E) × σ))
    (v : T) (s : σ) :
    thenFnChain fs (Ok v) s = seqCompose fs v s ∧
    thenFnChain [doubleFn, addOne] (Ok 10) () = (Ok 21, ()) ∧
    thenFnChain [doubleFn, add10] (Ok 5) () = (Ok 20, ()) ∧
    thenFnChain [negativeFn, doubleFn] (Ok 10) () = (Err (some "negative"), ()) ∧
    thenFnChain [logged negativeFn, logged doubleFn] (Ok 10) ((), []) =
      (Err (some "negative"), ((), [10])) := by
  refine ⟨?_, by decide, by decide, by decide, by decide⟩
  induction fs generalizing v s with
  | nil => rfl
  | cons f rest ih =>
    have hcons : thenFnChain (f :: rest) (Ok v : Result E T) s =
        thenFnChain rest ((Ok v : Result E T).ThenFn f s).1
          ((Ok v : Result E T).ThenFn f s).2 := rfl
    rw [hcons]
    cases hfe : (f v s).1.2 with
    | none =>
      have hstep : (Ok v : Result E T).ThenFn f s = (Ok (f v s).1.1, (f v s).2) := by
        simp [Result.ThenFn, Ok, Wrap, hfe]
      rw [hstep, ih]
      simp [seqCompose, hfe]
    | some e =>
      have hstep : (Ok v : Result E T).ThenFn f s = (Err (some e), (f v s).2) := by
        simp [Result.ThenFn, Ok, Wrap, hfe]
      rw [hstep, thenFnChain_of_isSome rest (Err (some e)) rfl]
      simp [seqCompose, hfe]

/-- C7. Accessors of a success: `Ok(v)` is Ok, is not Err, holds `v`, and has a nil error. -/
theorem ok_accessors (v : T) :
    (Ok v : Result E T).IsOk = true ∧ (Ok v : Result E T).IsErr = false ∧
    (Ok v : Result E T).Value = v ∧ (Ok v : Result E T).Error = none :=
  ⟨rfl, rfl, rfl, rfl⟩

/-- C8. Accessors of a failure: for a non-nil `e`, `Err[T](e)` is Err, is not Ok, has error
`e`, and its value is the zero value of `T`. -/
theorem err_accessors [Inhabited T] (e : E) :
    (Err (some e) : Result E T).IsErr = true ∧ (Err (some e) : Result E T).IsOk = false ∧
    (Err (some e) : Result E T).Error = some e ∧
    (Err (some e) : Result E T).Value = default :=
  ⟨rfl, rfl, rfl, rfl⟩

/-- C9. `Must` returns the value if and only if the Result is Ok: `Ok(v).Must()` returns
`v`; on a Result in the Err state it panics with exactly the stored error; and for every
Result, `Must` returns normally (then with the value field) exactly when `err` is nil. -/
theorem must_iff_ok (v : T) (r : Result E T) :
    (Ok v : Result E T).Must = Except.ok v ∧
    (r.IsErr = true → r.Must = Except.error r.Error) ∧
    (r.Must = Except.ok r.value ↔ r.err = none) ∧
    ((∃ x, r.Must = Except.ok x) ↔ r.IsOk = true) ∧
    (r.Must = Except.error r.err ↔ r.err ≠ none) := by
  refine ⟨rfl, ?_, ?_, ?_, ?_⟩ <;> rcases r with ⟨x, _ | e⟩ <;>
    simp [Result.Must, Result.IsErr, Result.IsOk, Result.Error]

/-- Witness for C9: `Err[int]("test").Must()` panics with the stored error. -/
theorem must_iff_ok_witness :
    (Err (some "test") : Result String Int).IsErr = true ∧
    (Err (some "test") : Result String Int).Must = Except.error (some "test") :=
  ⟨by decide, (must_iff_ok 42 (Err (some "test") : Result String Int)).2.1 (by decide)⟩

/-- C10. `Or` substitutes the fallback only on failure: `Ok(v).Or(d)` is `v`, also when `v`
is the zero value of `T`; `Err(e).Or(d)` is `d` for a non-nil `e`. `Or` is a total function
into `T`: it has no panicking outcome. -/
theorem or_fallback_only_on_failure [Inhabited T] (v d : T) (e : E) :
    (Ok v : Result E T).Or d = v ∧
    (Ok (default : T) : Result E T).Or d = default ∧
    (Err (some e) : Result E T).Or d = d :=
  ⟨rfl, rfl, rfl⟩

/-- C11. The side-effect combinators are the identity on the Result: for every Result `x`
and every callback, `OnSuccess`, `OnError` and `Always` return `x` itself, so `IsOk` and
`IsErr` of the returned Result are those of `x`. -/
theorem observers_identity (x : Result E T) (f : T → σ → σ) (k : GoError E → σ → σ)
    (a : σ → σ) (s : σ) :
    ((x.OnSuccess f s).1 = x ∧ (x.OnError k s).1 = x ∧ (x.Always a s).1 = x) ∧
    ((x.OnSuccess f s).1.IsOk = x.IsOk ∧ (x.OnSuccess f s).1.IsErr = x.IsErr) ∧
    ((x.OnError k s).1.IsOk = x.IsOk ∧ (x.OnError k s).1.IsErr = x.IsErr) ∧
    ((x.Always a s).1.IsOk = x.IsOk ∧ (x.Always a s).1.IsErr = x.IsErr) := by
  have h1 : (x.OnSuccess f s).1 = x := by
    simp only [Result.OnSuccess]; split <;> rfl
  have h2 : (x.OnError k s).1 = x := by
    simp only [Result.OnError]; split <;> rfl
  have h3 : (x.Always a s).1 = x := rfl
  rw [h1, h2, h3]
  exact ⟨⟨rfl, rfl, rfl⟩, ⟨rfl, rfl⟩, ⟨rfl, rfl⟩, ⟨rfl, rfl⟩⟩

/-- C12. Callback firing rule: `OnSuccess(cb)` runs `cb` exactly once, with `r.Value()`,
when `r` is Ok and never when `r` is Err; `OnError(cb)` runs `cb` exactly once, with
`r.Error()`, when `r` is Err and never when `r` is Ok; `Always(cb)` runs `cb` exactly once
in either state. Witness: on `Err("boom")`, `OnSuccess` leaves the log empty and `OnError`
logs the single call `cb2("boom")`. -/
theorem callback_firing_rule (r : Result E T) (f : T → σ → σ) (k : GoError E → σ → σ)
    (a : σ → σ) (s : σ) (logT : List T) (logE : List (GoError E)) (n : Nat) :
    r.OnSuccess (loggedEffect f) (s, logT) =
      (r, if r.IsOk then (f r.Value s, logT ++ [r.Value]) else (s, logT)) ∧
    r.OnError (loggedEffect k) (s, logE) =
      (r, if r.IsErr then (k r.Error s, logE ++ [r.Error]) else (s, logE)) ∧
    r.Always (countedThunk a) (s, n) = (r, (a s, n + 1)) ∧
    (r.IsErr = !r.IsOk) ∧
    (Err (some "boom") : Result String Int).OnSuccess (loggedEffect (fun _ u => u)) ((), []) =
      (Err (some "boom"), ((), [])) ∧
    (Err (some "boom") : Result String Int).OnError (loggedEffect (fun _ u => u)) ((), []) =
      (Err (some "boom"), ((), [some "boom"])) ∧
    (Err (some "boom") : Result String Int).Always (countedThunk (fun u => u)) ((), 0) =
      (Err (some "boom"), ((), 1)) := by
  refine ⟨?_, ?_, rfl, ?_, by decide, by decide, by decide⟩
  · simp only [Result.OnSuccess, Result.IsOk, Result.Value, loggedEffect]
    split <;> rfl
  · simp only [Result.OnError, Result.IsErr, Result.Error, loggedEffect]
    split <;> rfl
  · rcases r with ⟨v, _ | e⟩ <;> rfl

/-- C13. In the full observer chain `Wrap(v, err).OnSuccess(a).OnError(b).Always(c)` exactly
one branch fires: `a` with `v` when `err` is nil, `b` with `err` when it is non-nil, and
never both; `c` runs exactly once, after it; the chain returns `Wrap(v, err)`. -/
theorem observer_chain_one_branch [Inhabited T] (v : T) (err : GoError E) (a : T → σ → σ)
    (b : GoError E → σ → σ) (c : σ → σ) (s : σ) (log : List (Event E T)) :
    observerChain (Wrap v err) (traceSuccess a) (traceError b) (traceAlways c) (s, log) =
      (Wrap v err,
        match err with
        | none => (c (a v s), log ++ [Event.success v, Event.always])
        | some e => (c (b (some e) s), log ++ [Event.failure (some e), Event.always])) ∧
    observerChain (Wrap (divide 10 2).1 (divide 10 2).2) (traceSuccess (fun _ u => u))
        (traceError (fun _ u => u)) (traceAlways (fun u => u)) ((), []) =
      (Ok 5, ((), [Event.success 5, Event.always])) ∧
    observerChain (Wrap (divide 10 0).1 (divide 10 0).2) (traceSuccess (fun _ u => u))
        (traceError (fun _ u => u)) (traceAlways (fun u => u)) ((), []) =
      (Err (some "division by zero"),
        ((), [Event.failure (some "division by zero"), Event.always])) := by
  refine ⟨?_, by decide, by decide⟩
  cases err with
  | none =>
    simp [observerChain, Wrap, Ok, Result.OnSuccess, Result.OnError, Result.Always,
      traceSuccess, traceError, traceAlways]
  | some e =>
    simp [observerChain, Wrap, Err, Result.OnSuccess, Result.OnError, Result.Always,
      traceSuccess, traceError, traceAlways]

/-- C14. `Unwrap` returns the pair with one meaningful component: `Ok(v).Unwrap()` is
`(v, nil)`, and `Err[T](e).Unwrap()` is `(zero value of T, e)` for a non-nil `e`. -/
theorem unwrap_pair [Inhabited T] (v : T) (e : E) :
    (Ok v : Result E T).Unwrap = (v, none) ∧
    (Err (some e) : Result E T).Unwrap = (default, some e) :=
  ⟨rfl, rfl⟩

/-- C15. The state predicates partition every Result, whatever its fields (the zero Result
included): exactly one of `IsOk` and `IsErr` is true, `IsErr` is the negation of `IsOk`,
and `IsOk` holds exactly when `Error()` is nil. -/
theorem isOk_isErr_partition [Inhabited T] (r : Result E T) :
    (r.IsErr = !r.IsOk) ∧
    ((r.IsOk = true ∧ r.IsErr = false) ∨ (r.IsOk = false ∧ r.IsErr = true)) ∧
    (r.IsOk = true ↔ r.Error = none) ∧
    (({ value := default, err := none } : Result E T).IsOk = true ∧
      ({ value := default, err := none } : Result E T).IsErr = false) := by
  rcases r with ⟨v, _ | e⟩ <;> simp [Result.IsOk, Result.IsErr, Result.Error]

/-- `Wrap` always establishes the zero-value-on-failure predicate. -/
theorem zeroOnFailure_wrap [Inhabited T] (v : T) (err : GoError E) :
    ZeroOnFailure (Wrap v err : Result E T) := by
  cases err <;> simp [ZeroOnFailure, Wrap, Ok, Err, Result.IsErr, Result.Value]

/-- `ThenFn` preserves the zero-value-on-failure predicate, whatever the callback. -/
theorem zeroOnFailure_thenFn [Inhabited T] {ρ : Type} (r : Result E T)
    (fn : T → ρ → (T × GoError E) × ρ) (s : ρ) (h : ZeroOnFailure r) :
    ZeroOnFailure (r.ThenFn fn s).1 := by
  unfold Result.ThenFn
  split
  · exact h
  · exact zeroOnFailure_wrap _ _

/-- `Then` preserves the predicate when the callback's Result satisfies it. -/
theorem zeroOnFailure_then [Inhabited T] {ρ : Type} (r : Result E T)
    (gn : T → ρ → Result E T × ρ) (s : ρ) (h : ZeroOnFailure r)
    (hg : ZeroOnFailure (gn r.value s).1) : ZeroOnFailure (r.Then gn s).1 := by
  unfold Result.Then
  split
  · exact h
  · exact hg

/-- `OnSuccess` returns its receiver. -/
theorem onSuccess_fst {ρ : Type} (r : Result E T) (f : T → ρ → ρ) (s : ρ) :
    (r.OnSuccess f s).1 = r := by
  unfold Result.OnSuccess
  split <;> rfl

/-- `OnError` returns its receiver. -/
theorem onError_fst {ρ : Type} (r : Result E T) (k : GoError E → ρ → ρ) (s : ρ) :
    (r.OnError k s).1 = r := by
  unfold Result.OnError
  split <;> rfl

/-- Every Result reachable through the public API satisfies the predicate. -/
theorem zeroOnFailure_of_reachable [Inhabited T] (r : Result E T) (h : Reachable r) :
    ZeroOnFailure r := by
  induction h with
  | ofOk v => intro hv; cases hv
  | ofErr err => intro _; rfl
  | ofWrap v err => exact zeroOnFailure_wrap v err
  | thenFn r fn s _ ih => exact zeroOnFailure_thenFn r fn s ih
  | andThen r gn s _ _ ih ihg => exact zeroOnFailure_then r gn s ih (ihg _ _)
  | onSuccess r f s _ ih => rw [onSuccess_fst]; exact ih
  | onError r k s _ ih => rw [onError_fst]; exact ih
  | always r a s _ ih => exact ih

/-- `Wrap` after `Unwrap` gives the Result back exactly when it satisfies the predicate. -/
theorem wrap_unwrap_iff [Inhabited T] (r : Result E T) :
    Wrap r.Unwrap.1 r.Unwrap.2 = r ↔ ZeroOnFailure r := by
  rcases r with ⟨v, _ | e⟩
  · simp [Wrap, Ok, Result.Unwrap, ZeroOnFailure, Result.IsErr]
  · simp only [Wrap, Err, Result.Unwrap, ZeroOnFailure, Result.IsErr, Result.Value,
      Option.isSome_some, if_true, Result.mk.injEq, and_true, forall_const]
    exact eq_comm

/-- C16. Zero-value-on-failure invariant: "if `IsErr` then `Value()` is the zero value of
`T`" holds for every Result produced by `Ok`, `Err` and `Wrap`; it is preserved by `ThenFn`
for an arbitrary callback (also one returning a non-zero value with a non-nil error), by
`OnSuccess`, `OnError` and `Always`, and by `Then` when the callback's returned Result
satisfies it; hence it holds for every Result reachable through the public API. -/
theorem zeroOnFailure_invariant [Inhabited T] (v : T) (err : GoError E) (r : Result E T)
    (fn : T → σ → (T × GoError E) × σ) (gn : T → σ → Result E T × σ) (f : T → σ → σ)
    (k : GoError E → σ → σ) (a : σ → σ) (s : σ) :
    (ZeroOnFailure (Ok v : Result E T) ∧ ZeroOnFailure (Err err : Result E T) ∧
      ZeroOnFailure (Wrap v err : Result E T)) ∧
    (ZeroOnFailure r → ZeroOnFailure (r.ThenFn fn s).1) ∧
    (ZeroOnFailure r → ZeroOnFailure (r.OnSuccess f s).1 ∧
      ZeroOnFailure (r.OnError k s).1 ∧ ZeroOnFailure (r.Always a s).1) ∧
    (ZeroOnFailure r → ZeroOnFailure (gn r.value s).1 → ZeroOnFailure (r.Then gn s).1) ∧
    (Reachable r → ZeroOnFailure r) := by
  refine ⟨⟨?_, ?_, zeroOnFailure_wrap v err⟩, zeroOnFailure_thenFn r fn s, ?_,
    zeroOnFailure_then r gn s, zeroOnFailure_of_reachable r⟩
  · intro hv; cases hv
  · intro _; rfl
  · intro h
    rw [onSuccess_fst, onError_fst]
    exact ⟨h, h, h⟩

/-- Witness for C16: a callback returning `(7, "bad")` on `Ok(1)`; the Result of `ThenFn`
is `Err("bad")` with the value slot back at zero. -/
theorem zeroOnFailure_invariant_witness :
    ZeroOnFailure (Ok 1 : Result String Int) ∧
    ((Ok 1 : Result String Int).ThenFn valueAndError ()).1 = Err (some "bad") ∧
    ZeroOnFailure ((Ok 1 : Result String Int).ThenFn valueAndError ()).1 ∧
    ZeroOnFailure ((Ok 1 : Result String Int).Then processValue ()).1 ∧
    Reachable ((Ok 1 : Result String Int).ThenFn valueAndError ()).1 :=
  have h := zeroOnFailure_invariant (1 : Int) (some "bad") (Ok 1 : Result String Int)
    valueAndError processValue (fun _ u => u) (fun _ u => u) (fun u => u) ()
  ⟨by decide, by decide, h.2.1 (by decide), h.2.2.2.1 (by decide) (by decide),
    Reachable.thenFn _ _ _ (Reachable.ofOk 1)⟩

/-- C17. `Err` with a nil error is not a failure: `Err[T](nil)` equals `Ok(zero value)`; it
is Ok and not Err, `Must()` returns the zero value without panicking, and `Or(d)` returns
the zero value, not `d`. For every error `e`, `Err[T](e)` is Err exactly when `e` is
non-nil. -/
theorem err_nil_is_ok [Inhabited T] (d : T) (e : GoError E) :
    (Err none : Result E T) = Ok default ∧
    ((Err none : Result E T).IsOk = true ∧ (Err none : Result E T).IsErr = false) ∧
    (Err none : Result E T).Must = Except.ok default ∧
    (Err none : Result E T).Or d = default ∧
    ((Err e : Result E T).IsErr = true ↔ e ≠ none) := by
  refine ⟨rfl, ⟨rfl, rfl⟩, rfl, rfl, ?_⟩
  cases e <;> simp [Err, Result.IsErr]

/-- C18. Wrap/Unwrap round trip: `Wrap(r.Unwrap())` equals `r` for every Result satisfying
the zero-value-on-failure invariant, hence for every reachable Result; `Wrap(v, e).Unwrap()`
is `(v, nil)` when `e` is nil and `(zero value, e)` when `e` is non-nil, so it is the
pair `(v, e)` exactly when `v` is the zero value whenever `e` is non-nil. -/
theorem wrap_unwrap_roundtrip [Inhabited T] (r : Result E T) (v : T) (e : E)
    (err : GoError E) :
    (ZeroOnFailure r → Wrap r.Unwrap.1 r.Unwrap.2 = r) ∧
    (Reachable r → Wrap r.Unwrap.1 r.Unwrap.2 = r) ∧
    ((Wrap v none : Result E T).Unwrap = (v, none) ∧
      (Wrap v (some e) : Result E T).Unwrap = (default, some e)) ∧
    ((Wrap v err : Result E T).Unwrap = (v, err) ↔ (err ≠ none → v = default)) := by
  refine ⟨(wrap_unwrap_iff r).mpr, fun h => (wrap_unwrap_iff r).mpr
    (zeroOnFailure_of_reachable r h), ⟨rfl, rfl⟩, ?_⟩
  cases err with
  | none => simp [Wrap, Ok, Result.Unwrap]
  | some x =>
    simp only [Wrap, Err, Result.Unwrap, Option.isSome_some, if_true, Prod.mk.injEq,
      and_true, ne_eq, not_false_eq_true, forall_const, reduceCtorEq]
    exact eq_comm

/-- Witness for C18: `Err[int]("test")` satisfies the invariant and survives the round
trip. -/
theorem wrap_unwrap_roundtrip_witness :
    ZeroOnFailure (Err (some "test") : Result String Int) ∧
    Wrap (Err (some "test") : Result String Int).Unwrap.1
      (Err (some "test") : Result String Int).Unwrap.2 =
      (Err (some "test") : Result String Int) :=
  ⟨by decide,
    (wrap_unwrap_roundtrip (Err (some "test") : Result String Int) 42 "e" none).1
      (by decide)⟩

/-- C19. `ThenFn` is `Then` composed with `Wrap`: for every Result `r` and callback `fn`,
`r.ThenFn(fn)` equals `r.Then(func(x) { return Wrap(fn(x)) })`, and `fn` is invoked the
same number of times in both: once, with `r.Value()`, when `r` is Ok, never when `r` is
Err. -/
theorem thenFn_eq_then_wrap [Inhabited T] (r : Result E T)
    (fn : T → σ → (T × GoError E) × σ) (s : σ) (log : List T) :
    r.ThenFn fn s = r.Then (wrapFn fn) s ∧
    r.ThenFn (logged fn) (s, log) = r.Then (wrapFn (logged fn)) (s, log) ∧
    (r.ThenFn (logged fn) (s, log)).2.2 = (if r.IsOk then log ++ [r.Value] else log) ∧
    (r.Then (wrapFn (logged fn)) (s, log)).2.2 =
      (if r.IsOk then log ++ [r.Value] else log) := by
  rcases r with ⟨v, _ | e⟩ <;>
    simp [Result.ThenFn, Result.Then, wrapFn, logged, Result.IsOk, Result.Value]

/-- C20. `Then` satisfies the monad laws on Result: `r.Then(f).Then(g)` equals
`r.Then(func(x) { return f(x).Then(g) })` (associativity) and `r.Then(Ok)` equals `r`
(right identity), for every Result `r`, the Err state included. The chain of
`chainingThen`, `Ok(10).Then(processValue).Then(validateRange)`, is `Ok(20)` both ways. -/
theorem then_monad_laws (r : Result E T) (f g : T → σ → Result E T × σ) (s : σ) :
    (r.Then f s).1.Then g (r.Then f s).2 = r.Then (thenCompose f g) s ∧
    r.Then okFn s = (r, s) ∧
    ((Ok 10 : Result String Int).Then processValue ()).1.Then validateRange () =
      (Ok 20, ()) ∧
    (Ok 10 : Result String Int).Then (thenCompose processValue validateRange) () =
      (Ok 20, ()) := by
  refine ⟨?_, ?_, by decide, by decide⟩
  · rcases r with ⟨v, _ | e⟩ <;> simp [Result.Then, thenCompose]
  · rcases r with ⟨v, _ | e⟩ <;> simp [Result.Then, okFn, Ok]

end Werror
